import Mathlib

/-!
Shallow embedding of the RAGProject client orchestration layer:
the zustand chat store (conversations / messages / pending jobs),
the auth store (login / logout / token expiry), the persistence
rehydration hook, the job polling loop and the chunked uploader.

Timestamps (JS `Date` / `Date.now()`) are modelled as integers
(milliseconds).  JS records are modelled as association lists,
`Partial<T>` update objects as structures of `Option` fields, and
JS truthiness on strings/numbers is made explicit where the code
relies on it.
-/

namespace RAG

/-- Message roles, from `types/index.ts`: `"user" | "assistant" | "system"`. -/
inductive MessageRole
  | user
  | assistant
  | system
deriving DecidableEq

/-- Message statuses, from `types/index.ts`: `"sending" | "sent" | "error"`. -/
inductive MessageStatus
  | sending
  | sent
  | error
deriving DecidableEq

/-- `Message` from `types/index.ts`.  The open `metadata` bag
(`Record<string, unknown>` at the `addMessage` call boundary) is modelled as an
optional association list of string entries. -/
structure Message where
  id : String
  role : MessageRole
  content : String
  timestamp : Int
  status : Option MessageStatus
  metadata : Option (List (String × String))
deriving DecidableEq

/-- `Conversation` from `types/index.ts`. -/
structure Conversation where
  id : String
  title : String
  userId : String
  messages : List Message
  createdAt : Int
  updatedAt : Int
deriving DecidableEq

/-- `PendingJob` from `types/index.ts`. -/
structure PendingJob where
  jobId : String
  messageId : String
  conversationId : String
  query : String
  startedAt : Int
  pollCount : Nat
deriving DecidableEq

/-- `AppSettings` from `types/index.ts` (the fields the store persists). -/
structure AppSettings where
  userId : String
  theme : String
  pollIntervalMs : Nat
  maxPollAttempts : Nat
  autoScroll : Bool
  soundEnabled : Bool
deriving DecidableEq

/-- The chat store state (`ChatState` in `chat-store`): conversations, the
active-conversation pointer, error slot, pending jobs (a JS record keyed by
`jobId`, modelled as an association list) and UI/settings slices. -/
structure ChatState where
  conversations : List Conversation
  activeConversationId : Option String
  isLoading : Bool
  isSending : Bool
  error : Option String
  pendingJobs : List (String × PendingJob)
  settings : AppSettings
  sidebarOpen : Bool
  uploadModalOpen : Bool
deriving DecidableEq

/-- Mutate the first element satisfying `p` with `f`, leave the rest alone.
This is the shape of every immer `state.conversations.find(...)`-then-mutate
block in the store. -/
def updateFirst {α : Type} (p : α → Bool) (f : α → α) : List α → List α
  | [] => []
  | x :: xs => if p x then f x :: xs else x :: updateFirst p f xs

/-- Remove the first element satisfying `p` (the `findIndex` + `splice(i, 1)`
pattern of `deleteMessage` / `deleteConversation`). -/
def removeFirst {α : Type} (p : α → Bool) : List α → List α
  | [] => []
  | x :: xs => if p x then xs else x :: removeFirst p xs

/-- `state.conversations.find((c) => c.id === id)`. -/
def findConv (s : ChatState) (cid : String) : Option Conversation :=
  s.conversations.find? (fun c => c.id == cid)

/-- `conversation.messages.find((m) => m.id === messageId)`. -/
def findMsg (c : Conversation) (mid : String) : Option Message :=
  c.messages.find? (fun m => m.id == mid)

/-- `state.pendingJobs[jobId]` on the association-list model of the record. -/
def findJob (s : ChatState) (jobId : String) : Option PendingJob :=
  (s.pendingJobs.find? (fun p => p.1 == jobId)).map Prod.snd

/-- Number of `user`-role messages in a list (the
`messages.filter((m) => m.role === "user").length` expression of
`addMessage`). -/
def userCount (msgs : List Message) : Nat :=
  (msgs.filter (fun m => m.role == MessageRole.user)).length

/-- The message object built at the top of `addMessage`:
status is `"sent"` for user messages and absent otherwise, `metadata` is
stored verbatim. -/
def newMessageOf (role : MessageRole) (content : String)
    (metadata : Option (List (String × String))) (messageId : String)
    (now : Int) : Message :=
  { id := messageId
    role := role
    content := content
    timestamp := now
    status := if role = MessageRole.user then some MessageStatus.sent else none
    metadata := metadata }

/-- The per-conversation mutation of `addMessage(conversationId, role,
content, metadata?)`: push the new message, bump `updatedAt`, and when this
is the first `user`-role message derive the title from the content.  `tf` is
the (pure) `extractConversationTitle` helper from `lib/utils`, whose body is
outside the embedded sources; every theorem below is universally quantified
over it.  The fresh message id and the clock reading are explicit
arguments. -/
def addMessageConv (tf : String → String) (role : MessageRole) (content : String)
    (metadata : Option (List (String × String))) (messageId : String)
    (now : Int) (c : Conversation) : Conversation :=
  let msgs := c.messages ++ [newMessageOf role content metadata messageId now]
  { c with
    messages := msgs
    updatedAt := now
    title :=
      if role = MessageRole.user ∧ userCount msgs = 1 then tf content
      else c.title }

/-- `addMessage` assembled from the per-conversation mutation above. -/
def addMessage (tf : String → String) (s : ChatState) (conversationId : String)
    (role : MessageRole) (content : String)
    (metadata : Option (List (String × String))) (messageId : String)
    (now : Int) : ChatState :=
  let conversations := updateFirst (fun c => c.id == conversationId)
    (addMessageConv tf role content metadata messageId now) s.conversations
  { s with conversations := conversations }

/-- A `Partial<Message>` update object: present fields are assigned by
`Object.assign`, absent fields are left alone. -/
structure MessageUpdate where
  id : Option String
  role : Option MessageRole
  content : Option String
  timestamp : Option Int
  status : Option MessageStatus
  metadata : Option (List (String × String))
deriving DecidableEq

/-- `Object.assign(message, updates)`. -/
def applyUpdate (m : Message) (u : MessageUpdate) : Message :=
  { id := u.id.getD m.id
    role := u.role.getD m.role
    content := u.content.getD m.content
    timestamp := u.timestamp.getD m.timestamp
    status := match u.status with
      | some st => some st
      | none => m.status
    metadata := match u.metadata with
      | some md => some md
      | none => m.metadata }

/-- The per-conversation mutation of `updateMessage`: when the message is
found, merge the update into it in place and bump `updatedAt`; otherwise the
conversation is untouched. -/
def updateMessageConv (messageId : String) (u : MessageUpdate) (now : Int)
    (c : Conversation) : Conversation :=
  if (findMsg c messageId).isSome then
    { c with
      messages := updateFirst (fun m => m.id == messageId)
        (fun m => applyUpdate m u) c.messages
      updatedAt := now }
  else c

/-- `updateMessage(conversationId, messageId, updates)`: merge into the
message in place and bump `updatedAt`; silently does nothing when either id
is absent. -/
def updateMessage (s : ChatState) (conversationId messageId : String)
    (u : MessageUpdate) (now : Int) : ChatState :=
  let conversations := updateFirst (fun c => c.id == conversationId)
    (updateMessageConv messageId u now) s.conversations
  { s with conversations := conversations }

/-- The `Partial<Message>` literal `{ status }` used by
`updateMessageStatus`. -/
def statusOnly (st : MessageStatus) : MessageUpdate :=
  ⟨none, none, none, none, some st, none⟩

/-- `updateMessageStatus(conversationId, messageId, status)` — the
convenience wrapper over `updateMessage`. -/
def updateMessageStatus (s : ChatState) (conversationId messageId : String)
    (st : MessageStatus) (now : Int) : ChatState :=
  updateMessage s conversationId messageId (statusOnly st) now

/-- The per-conversation mutation of `deleteMessage`: when the message is
found (`findIndex !== -1`), splice it out and bump `updatedAt`. -/
def deleteMessageConv (messageId : String) (now : Int)
    (c : Conversation) : Conversation :=
  if (findMsg c messageId).isSome then
    { c with
      messages := removeFirst (fun m => m.id == messageId) c.messages
      updatedAt := now }
  else c

/-- `deleteMessage(conversationId, messageId)`: splice the message out and
bump `updatedAt`; no-op when either id is absent. -/
def deleteMessage (s : ChatState) (conversationId messageId : String)
    (now : Int) : ChatState :=
  let conversations := updateFirst (fun c => c.id == conversationId)
    (deleteMessageConv messageId now) s.conversations
  { s with conversations := conversations }

/-- The per-conversation mutation of `updateConversationTitle`. -/
def setTitleConv (title : String) (now : Int) (c : Conversation) : Conversation :=
  { c with title := title, updatedAt := now }

/-- `updateConversationTitle(id, title)`. -/
def updateConversationTitle (s : ChatState) (cid title : String)
    (now : Int) : ChatState :=
  let conversations := updateFirst (fun c => c.id == cid)
    (setTitleConv title now) s.conversations
  { s with conversations := conversations }

/-- A `Partial<PendingJob>` update object. -/
structure PendingJobUpdate where
  jobId : Option String
  messageId : Option String
  conversationId : Option String
  query : Option String
  startedAt : Option Int
  pollCount : Option Nat
deriving DecidableEq

/-- `Object.assign(job, updates)`. -/
def applyJobUpdate (j : PendingJob) (u : PendingJobUpdate) : PendingJob :=
  { jobId := u.jobId.getD j.jobId
    messageId := u.messageId.getD j.messageId
    conversationId := u.conversationId.getD j.conversationId
    query := u.query.getD j.query
    startedAt := u.startedAt.getD j.startedAt
    pollCount := u.pollCount.getD j.pollCount }

/-- `updatePendingJob(jobId, updates)`: merge when the key is present,
silently do nothing otherwise. -/
def updatePendingJob (s : ChatState) (jobId : String)
    (u : PendingJobUpdate) : ChatState :=
  let pendingJobs := updateFirst (fun p => p.1 == jobId)
    (fun p => (p.1, applyJobUpdate p.2 u)) s.pendingJobs
  { s with pendingJobs := pendingJobs }

/-- The date re-parsing pass of `onRehydrateStorage`
(`new Date(conv.createdAt)`, …).  With timestamps modelled as numeric
millisecond values, re-parsing a serialized timestamp yields the same
instant, so the pass maps every timestamp to itself. -/
def parseConversationDates (conv : Conversation) : Conversation :=
  { conv with
    createdAt := conv.createdAt
    updatedAt := conv.updatedAt
    messages := conv.messages.map (fun m => { m with timestamp := m.timestamp }) }

/-- `onRehydrateStorage` of the `rag-chat-storage` persist config:
re-parse dates, keep only the current user's (or `'anonymous'`) conversations
— discarding everything when nobody is logged in (`currentUserId` absent, or
the empty string, which is falsy in the `if (currentUserId)` guard) — and
clear the active pointer when a truthy active id no longer resolves. -/
def onRehydrateChat (currentUserId : Option String) (s : ChatState) : ChatState :=
  let parsed := s.conversations.map parseConversationDates
  let conversations := match currentUserId with
    | some uid =>
        if uid = "" then []
        else parsed.filter (fun c => c.userId == uid || c.userId == "anonymous")
    | none => []
  let active := match s.activeConversationId with
    | some aid =>
        if aid = "" then some aid
        else if (conversations.find? (fun c => c.id == aid)).isSome then some aid
        else none
    | none => none
  { s with conversations := conversations, activeConversationId := active }

/-- `UserResponse` from `types/index.ts`. -/
structure UserResponse where
  user_id : String
  username : String
  email : String
  full_name : Option String
  created_at : String
deriving DecidableEq

/-- `TokenResponse` from `types/index.ts`. -/
structure TokenResponse where
  access_token : String
  token_type : String
  expires_in : Int
  user : UserResponse
deriving DecidableEq

/-- The auth store state (`AuthStoreState`). -/
structure AuthState where
  isAuthenticated : Bool
  user : Option UserResponse
  token : Option String
  expiresAt : Option Int
  isLoading : Bool
  isInitialized : Bool
  error : Option String
deriving DecidableEq

/-- The slice of `localStorage` the auth store touches: the serialized
`rag-chat-storage` record (`none` = key absent, i.e. removed). -/
structure BrowserStorage where
  ragChatStorage : Option String
deriving DecidableEq

/-- `login(response)` from the auth store.  When a user with a truthy
`user_id` was already signed in and the new `user_id` differs, the persisted
`rag-chat-storage` record is removed before the new identity, token and
expiry are adopted (`previousUserId && previousUserId !== newUserId`). -/
def login (st : AuthState) (storage : BrowserStorage) (response : TokenResponse)
    (now : Int) : AuthState × BrowserStorage :=
  let expiresAt := now + response.expires_in * 1000
  let previousUserId := st.user.map (fun u => u.user_id)
  let purge : Bool := match previousUserId with
    | some p => !(p == "") && !(p == response.user.user_id)
    | none => false
  let storage := if purge then { storage with ragChatStorage := none } else storage
  ({ st with
      isAuthenticated := true
      user := some response.user
      token := some response.access_token
      expiresAt := some expiresAt
      error := none
      isLoading := false },
   storage)

/-- `logout()` from the auth store: clear identity/token/expiry and remove
the persisted `rag-chat-storage` record unconditionally. -/
def logout (st : AuthState) (storage : BrowserStorage) : AuthState × BrowserStorage :=
  ({ st with
      isAuthenticated := false
      user := none
      token := none
      expiresAt := none
      error := none },
   { storage with ragChatStorage := none })

/-- `isTokenExpired()`: `true` when `token` or `expiresAt` is falsy
(`!token || !expiresAt` — absent, empty string, or zero), otherwise
`Date.now() >= expiresAt - 30000`. -/
def isTokenExpired (st : AuthState) (now : Int) : Bool :=
  match st.token, st.expiresAt with
  | some tok, some expiresAt =>
      if tok == "" || expiresAt == 0 then true
      else decide (now ≥ expiresAt - 30000)
  | _, _ => true

/-- Job statuses, from `types/index.ts` (`JobStatusType` plus the
`"not_found"` alternative of `JobStatusResponse`). -/
inductive JobStatus
  | queued
  | started
  | deferred
  | finished
  | stopped
  | scheduled
  | failed
  | not_found
deriving DecidableEq

/-- `JobStatusResponse` from `types/index.ts`. -/
structure JobStatusResponse where
  status : JobStatus
  result : Option String
  error : Option String
deriving DecidableEq

/-- The three statuses on which the poll loop exits. -/
def isTerminal : JobStatus → Bool
  | .finished => true
  | .failed => true
  | .not_found => true
  | _ => false

/-- JS `s || d` on an optional string (`status.error || "Job processing
failed"`): the default when the value is absent or empty. -/
def orElseText (s : Option String) (d : String) : String :=
  match s with
  | some v => if v == "" then d else v
  | none => d

/-- Outcome of the poll loop: the returned `JobStatusResponse`, a thrown
`ChatError(message, code)`, or fuel exhaustion of the embedding (never
reached with enough fuel). -/
inductive PollResult
  | ok (r : JobStatusResponse)
  | chatError (message code : String)
  | outOfFuel
deriving DecidableEq

/-- `setTimeout` truncates a fractional millisecond delay to an integer
(IDL `long` conversion), so a sleep of `interval` milliseconds lasts
`⌊interval⌋`. -/
def sleepMs (interval : ℚ) : Nat := interval.floor.toNat

/-- The `while (Date.now() - startTime < timeout)` loop of
`pollJobUntilComplete`.  `getStatus n` is the response to the `n`-th status
fetch (0-based); fetches are instantaneous and sleeps advance the clock by
exactly their truncated duration.  `elapsed` is `Date.now() - startTime`,
`attempt` counts completed fetches, `interval` is the current (fractional)
delay, multiplied by 1.5 and capped at `maxInterval` after each sleep. -/
def pollAux (getStatus : Nat → JobStatusResponse) (timeout : Nat)
    (maxInterval : ℚ) : Nat → Nat → Nat → ℚ → PollResult
  | 0, _, _, _ => .outOfFuel
  | fuel + 1, elapsed, attempt, interval =>
    if elapsed < timeout then
      let status := getStatus attempt
      match status.status with
      | .finished => .ok status
      | .failed =>
          .chatError (orElseText status.error "Job processing failed") "JOB_FAILED"
      | .not_found =>
          .chatError "Job not found. It may have expired." "JOB_NOT_FOUND"
      | _ =>
          pollAux getStatus timeout maxInterval fuel (elapsed + sleepMs interval)
            (attempt + 1) (min (interval * (3 / 2)) maxInterval)
    else
      .chatError "Job polling timed out. Please try again." "POLL_TIMEOUT"

/-- `pollJobUntilComplete(jobId, options)` with explicit option values. -/
def pollJobUntilComplete (getStatus : Nat → JobStatusResponse)
    (initialInterval maxInterval : ℚ) (timeout : Nat) (fuel : Nat) : PollResult :=
  pollAux getStatus timeout maxInterval fuel 0 0 initialInterval

/-- `pollJobUntilComplete` at its default options
(`initialInterval = 500`, `maxInterval = 3000`, `timeout = 120000`). -/
def pollDefaults (getStatus : Nat → JobStatusResponse) (fuel : Nat) : PollResult :=
  pollJobUntilComplete getStatus 500 3000 120000 fuel

/-- The interval value at the top of the `n`-th loop iteration (0-based):
`initial`, then `min(previous * 1.5, maxI)` after each sleep. -/
def intervalSeq (initial maxI : ℚ) : Nat → ℚ
  | 0 => initial
  | n + 1 => min (intervalSeq initial maxI n * (3 / 2)) maxI

/-- The truncated sleep after the `n`-th fetch (0-based) at default
options. -/
def defaultSleep (n : Nat) : Nat := sleepMs (intervalSeq 500 3000 n)

/-- Elapsed wall-clock time at the top of the `n`-th loop iteration at
default options: the sum of the first `n` sleeps. -/
def elapsedBefore : Nat → Nat
  | 0 => 0
  | n + 1 => elapsedBefore n + defaultSleep n

/-- `IngestDocumentResponse` from `types/index.ts`. -/
structure IngestDocumentResponse where
  status : String
  filename : String
  document_type : String
  total_pages : Nat
  chunks_total : Nat
  chunks_ingested : Nat
  user_id : String
  metadata : Option (List (String × String))
  error : Option String
deriving DecidableEq

/-- The chunk-building loop of `ingestRange`:
`for (let start = 0; start < total; start += chunkSize)` pushing
`(start, min(start + chunkSize, total) - 1)`.  Structured with explicit
fuel; `buildChunks` supplies fuel `total`, which always suffices for a
positive chunk size. -/
def buildChunksAux (chunkSize total : Nat) : Nat → Nat → List (Nat × Nat)
  | 0, _ => []
  | fuel + 1, start =>
    if start < total then
      (start, min (start + chunkSize) total - 1) ::
        buildChunksAux chunkSize total fuel (start + chunkSize)
    else []

/-- The inclusive byte ranges `ingestRange` splits a `total`-byte file
into. -/
def buildChunks (chunkSize total : Nat) : List (Nat × Nat) :=
  buildChunksAux chunkSize total total 0

/-- One `/ingest-range` request: the shared `upload_id` query parameter and
the `bytes start-endByte/total` range carried in `Content-Range` /
`X-Content-Range`. -/
structure RangeRequest where
  uploadId : String
  start : Nat
  endByte : Nat
  total : Nat
deriving DecidableEq

/-- The requests `ingestRange` issues: one per chunk, all sharing the single
`uploadId` generated (or supplied) for the file. -/
def rangeRequests (uploadId : String) (chunkSize total : Nat) : List RangeRequest :=
  (buildChunks chunkSize total).map (fun ch => ⟨uploadId, ch.1, ch.2, total⟩)

/-- The `finalResponse` assignment of `ingestRange`: scanning the chunks in
order (with `responses i` the backend reply to the `i`-th chunk's request),
the reply becomes `finalResponse` exactly when `chunk.end + 1 === total` and
its status is `"success"`. -/
def finalResponseAux (total : Nat) (responses : Nat → IngestDocumentResponse) :
    List (Nat × Nat) → Nat → Option IngestDocumentResponse →
      Option IngestDocumentResponse
  | [], _, acc => acc
  | ch :: rest, i, acc =>
    let acc :=
      if ch.2 + 1 = total ∧ (responses i).status = "success" then some (responses i)
      else acc
    finalResponseAux total responses rest (i + 1) acc

/-- `ingestRange`, abstracted over the per-chunk backend replies: the result
is `finalResponse` when one was recorded, otherwise the
"Upload did not complete" error is thrown. -/
def ingestRange (chunkSize total : Nat)
    (responses : Nat → IngestDocumentResponse) :
    Except String IngestDocumentResponse :=
  match finalResponseAux total responses (buildChunks chunkSize total) 0 none with
  | some r => Except.ok r
  | none => Except.error "Upload did not complete. No final response received."

/-- The spec's description of the byte ranges, stated from the spec's words
(ceil(S/C) contiguous ranges, the i-th from `i*C` to `min((i+1)*C, S) - 1`),
to be compared with `buildChunks`. -/
def chunksSpec (chunkSize total : Nat) : List (Nat × Nat) :=
  (List.range ((total + chunkSize - 1) / chunkSize)).map
    (fun i => (i * chunkSize, min ((i + 1) * chunkSize) total - 1))

/-- One conversation-mutating store call, for reasoning about sequences of
operations: the five mutators of a conversation or its messages. -/
inductive StoreOp
  | add (cid : String) (role : MessageRole) (content : String)
      (metadata : Option (List (String × String))) (mid : String)
  | update (cid mid : String) (u : MessageUpdate)
  | updateStatus (cid mid : String) (st : MessageStatus)
  | del (cid mid : String)
  | setTitle (cid : String) (title : String)

/-- Dispatch one store call at clock reading `now`. -/
def applyOp (tf : String → String) (now : Int) (s : ChatState) :
    StoreOp → ChatState
  | .add cid role content metadata mid =>
      addMessage tf s cid role content metadata mid now
  | .update cid mid u => updateMessage s cid mid u now
  | .updateStatus cid mid st => updateMessageStatus s cid mid st now
  | .del cid mid => deleteMessage s cid mid now
  | .setTitle cid title => updateConversationTitle s cid title now

/-- Run a sequence of store calls, each paired with its clock reading. -/
def runOps (tf : String → String) (s : ChatState) :
    List (StoreOp × Int) → ChatState
  | [] => s
  | (op, now) :: rest => runOps tf (applyOp tf now s op) rest

/-- One `addMessage` call, for reasoning about sequences of `addMessage`
calls. -/
structure AddCall where
  cid : String
  role : MessageRole
  content : String
  metadata : Option (List (String × String))
  mid : String
  now : Int

/-- Run a sequence of `addMessage` calls. -/
def runAdds (tf : String → String) (s : ChatState) : List AddCall → ChatState
  | [] => s
  | a :: rest =>
      runAdds tf (addMessage tf s a.cid a.role a.content a.metadata a.mid a.now) rest

/-- Sample settings used by concrete evaluations below. -/
def sampleSettings : AppSettings := ⟨"", "system", 1000, 120, true, false⟩

/-- A sample user message. -/
def sampleMsgUser : Message := ⟨"m1", MessageRole.user, "hi", 5, some MessageStatus.sent, none⟩

/-- A sample conversation that already contains a user message. -/
def sampleConv : Conversation := ⟨"c1", "hi", "alice", [sampleMsgUser], 1, 5⟩

/-- A sample conversation with no messages yet. -/
def sampleConvEmpty : Conversation := ⟨"c2", "New Conversation", "alice", [], 1, 1⟩

/-- A sample pending job. -/
def sampleJob : PendingJob := ⟨"j1", "m1", "c1", "q", 0, 0⟩

/-- A sample store state used by concrete evaluations below. -/
def sampleState : ChatState :=
  ⟨[sampleConv, sampleConvEmpty], some "c1", false, false, none,
   [("j1", sampleJob)], sampleSettings, true, false⟩

/-- A sample authenticated user. -/
def sampleUser : UserResponse := ⟨"alice", "alice", "a@x", none, "2024"⟩

/-- A second sample user. -/
def sampleUserB : UserResponse := ⟨"bob", "bob", "b@x", none, "2024"⟩

/-- A sample token response for `sampleUserB`. -/
def sampleTokenB : TokenResponse := ⟨"tokB", "bearer", 3600, sampleUserB⟩

/-- A sample signed-in auth state for `sampleUser`. -/
def sampleAuth : AuthState := ⟨true, some sampleUser, some "tokA", some 100000, false, true, none⟩

/-- A sample successful ingest response. -/
def sampleIngestOk : IngestDocumentResponse :=
  ⟨"success", "f.pdf", "pdf", 1, 3, 3, "alice", none, none⟩

/-- A sample status stream: queued twice, then finished. -/
def samplePollFinished (n : Nat) : JobStatusResponse :=
  if n = 2 then ⟨JobStatus.finished, some "result text", none⟩
  else ⟨JobStatus.queued, none, none⟩

/-- A sample status stream that never terminates. -/
def samplePollQueued (_ : Nat) : JobStatusResponse :=
  ⟨JobStatus.queued, none, none⟩

theorem updateFirst_of_find?_none {α : Type} (p : α → Bool) (f : α → α) :
    ∀ l : List α, l.find? p = none → updateFirst p f l = l := by
  intro l
  induction l with
  | nil => intro _; rfl
  | cons x xs ih =>
      intro h
      rw [List.find?_cons] at h
      cases hp : p x with
      | true => simp [hp] at h
      | false =>
          simp only [hp] at h
          simp [updateFirst, hp, ih h]

theorem updateFirst_of_find?_fix {α : Type} (p : α → Bool) (f : α → α) :
    ∀ l : List α, ∀ a : α, l.find? p = some a → f a = a → updateFirst p f l = l := by
  intro l
  induction l with
  | nil => intro a h _; simp at h
  | cons x xs ih =>
      intro a h hfix
      rw [List.find?_cons] at h
      cases hp : p x with
      | true =>
          simp only [hp] at h
          obtain rfl : x = a := by exact Option.some.inj h
          simp [updateFirst, hp, hfix]
      | false =>
          simp only [hp] at h
          simp [updateFirst, hp, ih a h hfix]

theorem mem_updateFirst {α : Type} (p : α → Bool) (f : α → α) :
    ∀ l : List α, ∀ y ∈ updateFirst p f l, y ∈ l ∨ ∃ x, x ∈ l ∧ y = f x := by
  intro l
  induction l with
  | nil => intro y hy; simp [updateFirst] at hy
  | cons x xs ih =>
      intro y hy
      cases hp : p x with
      | true =>
          simp only [updateFirst, hp, if_true] at hy
          rcases List.mem_cons.mp hy with h | h
          · exact Or.inr ⟨x, List.mem_cons_self x xs, h⟩
          · exact Or.inl (List.mem_cons_of_mem x h)
      | false =>
          simp only [updateFirst, hp, if_false] at hy
          rcases List.mem_cons.mp hy with h | h
          · exact Or.inl (h ▸ List.mem_cons_self x xs)
          · rcases ih y h with h' | ⟨z, hz, hzy⟩
            · exact Or.inl (List.mem_cons_of_mem x h')
            · exact Or.inr ⟨z, List.mem_cons_of_mem x hz, hzy⟩

theorem find?_updateFirst_key {α : Type} (key : α → String) (f : α → α)
    (hid : ∀ x, key (f x) = key x) (k k' : String) :
    ∀ l : List α,
      (updateFirst (fun x => key x == k') f l).find? (fun x => key x == k) =
        if k = k' then (l.find? (fun x => key x == k)).map f
        else l.find? (fun x => key x == k) := by
  intro l
  induction l with
  | nil => simp [updateFirst]
  | cons x xs ih =>
      by_cases hxk' : key x = k'
      · by_cases hk : k = k'
        · subst hk
          simp [updateFirst, List.find?_cons, hid, hxk']
        · have hxk : ¬ key x = k := fun h => hk (h ▸ hxk' ▸ rfl)
          have hk2 : (k' == k) = false :=
            beq_eq_false_iff_ne.mpr (fun h => hk h.symm)
          simp [updateFirst, List.find?_cons, hid, hxk', hxk, hk, hk2]
      · by_cases hxk : key x = k
        · have hk : ¬ k = k' := fun h => hxk' (h ▸ hxk)
          simp [updateFirst, List.find?_cons, hxk', hxk, hk]
        · simp [updateFirst, List.find?_cons, hxk', hxk, ih]

theorem updateMessageConv_id (mid : String) (u : MessageUpdate) (now : Int)
    (c : Conversation) : (updateMessageConv mid u now c).id = c.id := by
  unfold updateMessageConv; split <;> rfl

theorem deleteMessageConv_id (mid : String) (now : Int)
    (c : Conversation) : (deleteMessageConv mid now c).id = c.id := by
  unfold deleteMessageConv; split <;> rfl

theorem findConv_addMessage (tf : String → String) (s : ChatState)
    (cid : String) (role : MessageRole) (content : String)
    (metadata : Option (List (String × String))) (mid : String) (now : Int)
    (cid' : String) :
    findConv (addMessage tf s cid role content metadata mid now) cid' =
      if cid' = cid then
        (findConv s cid').map (addMessageConv tf role content metadata mid now)
      else findConv s cid' := by
  exact find?_updateFirst_key Conversation.id
    (addMessageConv tf role content metadata mid now) (fun _ => rfl)
    cid' cid s.conversations

theorem findConv_updateMessage (s : ChatState) (cid mid : String)
    (u : MessageUpdate) (now : Int) (cid' : String) :
    findConv (updateMessage s cid mid u now) cid' =
      if cid' = cid then (findConv s cid').map (updateMessageConv mid u now)
      else findConv s cid' := by
  exact find?_updateFirst_key Conversation.id _ (updateMessageConv_id mid u now)
    cid' cid s.conversations

theorem findConv_deleteMessage (s : ChatState) (cid mid : String) (now : Int)
    (cid' : String) :
    findConv (deleteMessage s cid mid now) cid' =
      if cid' = cid then (findConv s cid').map (deleteMessageConv mid now)
      else findConv s cid' := by
  exact find?_updateFirst_key Conversation.id _ (deleteMessageConv_id mid now)
    cid' cid s.conversations

theorem findConv_updateConversationTitle (s : ChatState) (cid title : String)
    (now : Int) (cid' : String) :
    findConv (updateConversationTitle s cid title now) cid' =
      if cid' = cid then (findConv s cid').map (setTitleConv title now)
      else findConv s cid' := by
  exact find?_updateFirst_key Conversation.id (setTitleConv title now)
    (fun _ => rfl) cid' cid s.conversations

/-- C7: `isTokenExpired()` returns `true` iff there is no token or no stored
expiry — absent, or JS-falsy (empty-string token, zero expiry; for the
non-negative clock values `Date.now()` produces, a zero expiry also satisfies
`now ≥ expiresAt - 30000`) — or `now ≥ expiresAt - 30000`.  It returns `true`
exactly at the boundary `now = expiresAt - 30000` and `false` for any `now`
strictly below it (given a truthy token). -/
theorem c7_isTokenExpired_iff (st : AuthState) :
    (∀ now : Int, 0 ≤ now →
      (isTokenExpired st now = true ↔
        st.token = none ∨ st.token = some "" ∨ st.expiresAt = none ∨
          ∃ e, st.expiresAt = some e ∧ e - 30000 ≤ now)) ∧
    (∀ e, st.expiresAt = some e → isTokenExpired st (e - 30000) = true) ∧
    (∀ now e tok, st.token = some tok → tok ≠ "" → st.expiresAt = some e →
      0 ≤ now → now < e - 30000 → isTokenExpired st now = false) := by
  refine ⟨?_, ?_, ?_⟩
  · intro now hnow
    rcases htok : st.token with _ | tok
    · simp [isTokenExpired, htok]
    · rcases hexp : st.expiresAt with _ | e
      · simp [isTokenExpired, htok, hexp]
      · by_cases ht : tok = ""
        · simp [isTokenExpired, htok, hexp, ht]
        · have ht' : (tok == "") = false := beq_eq_false_iff_ne.mpr ht
          by_cases he : e = 0
          · subst he
            simp [isTokenExpired, htok, hexp, ht, ht']
            omega
          · have he' : (e == 0) = false := beq_eq_false_iff_ne.mpr he
            simp [isTokenExpired, htok, hexp, ht, ht', he', he]
  · intro e hexp
    rcases htok : st.token with _ | tok
    · simp [isTokenExpired, htok, hexp]
    · by_cases ht : tok = ""
      · simp [isTokenExpired, htok, hexp, ht]
      · have ht' : (tok == "") = false := beq_eq_false_iff_ne.mpr ht
        by_cases he : e = 0
        · simp [isTokenExpired, htok, hexp, he]
        · have he' : (e == 0) = false := beq_eq_false_iff_ne.mpr he
          simp [isTokenExpired, htok, hexp, ht', he']
  · intro now e tok htok ht hexp hnow hlt
    have he : e ≠ 0 := by omega
    have ht' : (tok == "") = false := beq_eq_false_iff_ne.mpr ht
    have he' : (e == 0) = false := beq_eq_false_iff_ne.mpr he
    simp [isTokenExpired, htok, hexp, ht', he']
    omega

/-- Witness for C7 at `sampleAuth` (`expiresAt = 100000`): expired exactly at
`70000`, not yet expired at `69999`. -/
theorem c7_isTokenExpired_iff_witness :
    isTokenExpired sampleAuth 70000 = true ∧
      isTokenExpired sampleAuth 69999 = false := by
  constructor
  · exact (c7_isTokenExpired_iff sampleAuth).2.1 100000 rfl
  · exact (c7_isTokenExpired_iff sampleAuth).2.2 69999 100000 "tokA" rfl
      (by decide) rfl (by decide) (by decide)

/-- C8: calling `updateMessage`, `updateMessageStatus`, `deleteMessage` or
`updatePendingJob` with an absent conversation id, message id or job id is a
local no-op: the entire store state is returned unchanged (and the
operations, being total functions, never throw). -/
theorem c8_absent_id_noop (s : ChatState) :
    (∀ cid mid u st now, findConv s cid = none →
      updateMessage s cid mid u now = s ∧
      updateMessageStatus s cid mid st now = s ∧
      deleteMessage s cid mid now = s) ∧
    (∀ cid c mid u st now, findConv s cid = some c → findMsg c mid = none →
      updateMessage s cid mid u now = s ∧
      updateMessageStatus s cid mid st now = s ∧
      deleteMessage s cid mid now = s) ∧
    (∀ jid ju, findJob s jid = none → updatePendingJob s jid ju = s) := by
  refine ⟨?_, ?_, ?_⟩
  · intro cid mid u st now h
    refine ⟨?_, ?_, ?_⟩
    · show { s with conversations := updateFirst (fun c => c.id == cid) (updateMessageConv mid u now) s.conversations } = s
      rw [updateFirst_of_find?_none _ _ _ h]
    · show { s with conversations := updateFirst (fun c => c.id == cid) (updateMessageConv mid (statusOnly st) now) s.conversations } = s
      rw [updateFirst_of_find?_none _ _ _ h]
    · show { s with conversations := updateFirst (fun c => c.id == cid) (deleteMessageConv mid now) s.conversations } = s
      rw [updateFirst_of_find?_none _ _ _ h]
  · intro cid c mid u st now h hm
    have hfix1 : updateMessageConv mid u now c = c := by
      simp [updateMessageConv, hm]
    have hfix2 : updateMessageConv mid (statusOnly st) now c = c := by
      simp [updateMessageConv, hm]
    have hfix3 : deleteMessageConv mid now c = c := by
      simp [deleteMessageConv, hm]
    refine ⟨?_, ?_, ?_⟩
    · show { s with conversations := updateFirst (fun c => c.id == cid) (updateMessageConv mid u now) s.conversations } = s
      rw [updateFirst_of_find?_fix _ _ _ c h hfix1]
    · show { s with conversations := updateFirst (fun c => c.id == cid) (updateMessageConv mid (statusOnly st) now) s.conversations } = s
      rw [updateFirst_of_find?_fix _ _ _ c h hfix2]
    · show { s with conversations := updateFirst (fun c => c.id == cid) (deleteMessageConv mid now) s.conversations } = s
      rw [updateFirst_of_find?_fix _ _ _ c h hfix3]
  · intro jid ju h
    have h' : s.pendingJobs.find? (fun p => p.1 == jid) = none := by
      rcases hfind : s.pendingJobs.find? (fun p => p.1 == jid) with _ | p
      · exact hfind
      · unfold findJob at h
        rw [hfind] at h
        simp at h
    show { s with pendingJobs := updateFirst (fun p => p.1 == jid) (fun p => (p.1, applyJobUpdate p.2 ju)) s.pendingJobs } = s
    rw [updateFirst_of_find?_none _ _ _ h']

/-- Witness for C8: absent ids on `sampleState` leave it unchanged. -/
theorem c8_absent_id_noop_witness :
    updateMessage sampleState "nope" "m1" (statusOnly MessageStatus.sent) 9 =
        sampleState ∧
      deleteMessage sampleState "c1" "nope" 9 = sampleState ∧
      updatePendingJob sampleState "nope" ⟨none, none, none, none, none, none⟩ =
        sampleState := by
  refine ⟨?_, ?_, ?_⟩
  · exact (((c8_absent_id_noop sampleState).1 "nope" "m1"
      (statusOnly MessageStatus.sent) MessageStatus.sent 9 (by decide))).1
  · exact (((c8_absent_id_noop sampleState).2.1 "c1" sampleConv "nope"
      (statusOnly MessageStatus.sent) MessageStatus.sent 9 (by decide)
      (by decide))).2.2
  · exact ((c8_absent_id_noop sampleState).2.2 "nope"
      ⟨none, none, none, none, none, none⟩ (by decide))

/-- C10: `addMessage` appends exactly one new message: its `status` is
`"sent"` when the role is `user` and absent for `assistant` and `system`;
the `metadata` argument is stored verbatim and — the conclusion holding for
every `metadata`, which occurs in no other field — never influences the
`status` or `content` fields. -/
theorem c10_addMessage_new_message (tf : String → String) (s : ChatState)
    (cid : String) (c : Conversation) (role : MessageRole) (content : String)
    (metadata : Option (List (String × String))) (mid : String) (now : Int)
    (h : findConv s cid = some c) :
    ∃ c' m,
      findConv (addMessage tf s cid role content metadata mid now) cid = some c' ∧
      c'.messages = c.messages ++ [m] ∧
      m.id = mid ∧ m.role = role ∧ m.content = content ∧ m.timestamp = now ∧
      m.metadata = metadata ∧
      m.status = (if role = MessageRole.user then some MessageStatus.sent else none) ∧
      (role = MessageRole.user → m.status = some MessageStatus.sent) ∧
      (role = MessageRole.assistant → m.status = none) ∧
      (role = MessageRole.system → m.status = none) := by
  refine ⟨addMessageConv tf role content metadata mid now c,
    newMessageOf role content metadata mid now,
    ?_, rfl, rfl, rfl, rfl, rfl, rfl, rfl, ?_, ?_, ?_⟩
  · rw [findConv_addMessage]
    simp [h]
  · intro hr
    simp [newMessageOf, hr]
  · intro hr
    subst hr
    simp [newMessageOf]
  · intro hr
    subst hr
    simp [newMessageOf]

/-- Witness for C10: adding an assistant message to `sampleState` with the
metadata bag `{status: 'sending'}` appends a message whose `status` is
absent and whose metadata is the bag, verbatim. -/
theorem c10_addMessage_new_message_witness :
    ∃ c' m,
      findConv (addMessage id sampleState "c1" MessageRole.assistant "..."
          (some [("status", "sending")]) "m9" 7) "c1" = some c' ∧
      c'.messages = sampleConv.messages ++ [m] ∧
      m.status = none ∧ m.metadata = some [("status", "sending")] := by
  obtain ⟨c', m, h1, h2, _, _, _, _, hmeta, _, _, hassist, _⟩ :=
    c10_addMessage_new_message id sampleState "c1" sampleConv
      MessageRole.assistant "..." (some [("status", "sending")]) "m9" 7 (by decide)
  exact ⟨c', m, h1, h2, hassist rfl, hmeta⟩

theorem parseConversationDates_eq (c : Conversation) :
    parseConversationDates c = c := by
  have h : c.messages.map (fun m => { m with timestamp := m.timestamp }) =
      c.messages := by
    have h2 : (fun m : Message => { m with timestamp := m.timestamp }) =
        fun m => m := funext fun _ => rfl
    rw [h2, List.map_id']
  simp [parseConversationDates, h]

theorem map_parseConversationDates (l : List Conversation) :
    l.map parseConversationDates = l := by
  have h : parseConversationDates = fun c => c := funext parseConversationDates_eq
  rw [h, List.map_id']

/-- C3: rehydration keeps exactly the conversations owned by the
authenticated identity or the `'anonymous'` sentinel; with no authenticated
identity (in particular right after `logout()`, which clears the user) it
discards every conversation and the active pointer; and a (truthy)
previously-active id survives exactly when it still resolves among the kept
conversations — otherwise `activeConversationId` becomes `null`. -/
theorem c3_rehydrate_ownership (s : ChatState) :
    (∀ uid, uid ≠ "" → ∀ c,
      c ∈ (onRehydrateChat (some uid) s).conversations ↔
        c ∈ s.conversations ∧ (c.userId = uid ∨ c.userId = "anonymous")) ∧
    (s.activeConversationId ≠ some "" →
      onRehydrateChat none s =
        { s with conversations := [], activeConversationId := none }) ∧
    (∀ st storage, (logout st storage).1.user = none) ∧
    (∀ cu aid, s.activeConversationId = some aid → aid ≠ "" →
      (onRehydrateChat cu s).activeConversationId =
        if ((onRehydrateChat cu s).conversations.find?
              (fun c => c.id == aid)).isSome
        then some aid else none) := by
  refine ⟨?_, ?_, fun _ _ => rfl, ?_⟩
  · intro uid huid c
    simp [onRehydrateChat, huid, map_parseConversationDates, List.mem_filter]
  · intro hact
    rcases ha : s.activeConversationId with _ | aid
    · simp [onRehydrateChat, ha]
    · have haid : aid ≠ "" := fun h => hact (h ▸ ha)
      simp [onRehydrateChat, ha, haid]
  · intro cu aid ha haid
    rcases cu with _ | uid
    · simp [onRehydrateChat, ha, haid]
    · by_cases huid : uid = ""
      · simp [onRehydrateChat, ha, haid, huid]
      · simp [onRehydrateChat, ha, haid, huid]

/-- Witness for C3 at `sampleState` (owner `alice`, active `c1`): rehydrating
with identity `bob` keeps nothing of `alice`, rehydrating with no identity
clears everything. -/
theorem c3_rehydrate_ownership_witness :
    (sampleConv ∈ (onRehydrateChat (some "alice") sampleState).conversations) ∧
    (¬ sampleConv ∈ (onRehydrateChat (some "bob") sampleState).conversations) ∧
    onRehydrateChat none sampleState =
      { sampleState with conversations := [], activeConversationId := none } := by
  refine ⟨?_, ?_, ?_⟩
  · exact ((c3_rehydrate_ownership sampleState).1 "alice" (by decide)
      sampleConv).mpr ⟨by decide, Or.inl (by decide)⟩
  · intro hmem
    have h := ((c3_rehydrate_ownership sampleState).1 "bob" (by decide)
      sampleConv).mp hmem
    rcases h with ⟨_, h | h⟩ <;> revert h <;> decide
  · exact (c3_rehydrate_ownership sampleState).2.1 (by decide)

/-- C4: `login(tokenResponse)` purges the persisted `rag-chat-storage`
record exactly when a user with a (truthy) id was already signed in and the
new `user_id` differs; with equal identities, or no previous user, the
persisted record is left untouched.  In all cases the new identity, token
and expiry (`Date.now() + expires_in * 1000`) are adopted. -/
theorem c4_login_identity_switch_purges (st : AuthState)
    (storage : BrowserStorage) (resp : TokenResponse) (now : Int) :
    (∀ u, st.user = some u → u.user_id ≠ "" → u.user_id ≠ resp.user.user_id →
      (login st storage resp now).2.ragChatStorage = none) ∧
    (∀ u, st.user = some u → u.user_id = resp.user.user_id →
      (login st storage resp now).2 = storage) ∧
    (st.user = none → (login st storage resp now).2 = storage) ∧
    (login st storage resp now).1.user = some resp.user ∧
    (login st storage resp now).1.token = some resp.access_token ∧
    (login st storage resp now).1.expiresAt = some (now + resp.expires_in * 1000) ∧
    (login st storage resp now).1.isAuthenticated = true := by
  refine ⟨?_, ?_, ?_, rfl, rfl, rfl, rfl⟩
  · intro u hu hne hswitch
    have h1 : (u.user_id == "") = false := beq_eq_false_iff_ne.mpr hne
    have h2 : (u.user_id == resp.user.user_id) = false :=
      beq_eq_false_iff_ne.mpr hswitch
    simp [login, hu, h1, h2]
  · intro u hu hsame
    simp [login, hu, hsame]
  · intro hu
    simp [login, hu]

/-- Witness for C4: switching from `alice` to `bob` removes the persisted
chat record; logging `alice` in again keeps it. -/
theorem c4_login_identity_switch_purges_witness :
    (login sampleAuth ⟨some "blob"⟩ sampleTokenB 0).2.ragChatStorage = none ∧
    (login sampleAuth ⟨some "blob"⟩ ⟨"tokA2", "bearer", 3600, sampleUser⟩ 0).2 =
      ⟨some "blob"⟩ := by
  constructor
  · exact (c4_login_identity_switch_purges sampleAuth ⟨some "blob"⟩
      sampleTokenB 0).1 sampleUser rfl (by decide) (by decide)
  · exact (c4_login_identity_switch_purges sampleAuth ⟨some "blob"⟩
      ⟨"tokA2", "bearer", 3600, sampleUser⟩ 0).2.1 sampleUser rfl rfl

theorem userCount_append (l : List Message) (m : Message) :
    userCount (l ++ [m]) =
      userCount l + (if m.role == MessageRole.user then 1 else 0) := by
  simp only [userCount, List.filter_append, List.length_append]
  cases hp : m.role == MessageRole.user <;> simp [List.filter, hp]

theorem addMessageConv_messages (tf : String → String) (role : MessageRole)
    (content : String) (metadata : Option (List (String × String)))
    (mid : String) (now : Int) (c : Conversation) :
    (addMessageConv tf role content metadata mid now c).messages =
      c.messages ++ [newMessageOf role content metadata mid now] := rfl

theorem addMessageConv_title_keep (tf : String → String) (role : MessageRole)
    (content : String) (metadata : Option (List (String × String)))
    (mid : String) (now : Int) (c : Conversation)
    (h : 1 ≤ userCount c.messages) :
    (addMessageConv tf role content metadata mid now c).title = c.title := by
  show (if role = MessageRole.user ∧
      userCount (c.messages ++ [newMessageOf role content metadata mid now]) = 1
    then tf content else c.title) = c.title
  rw [userCount_append]
  by_cases hr : role = MessageRole.user
  · subst hr
    rw [if_neg]
    rintro ⟨_, hcount⟩
    simp [newMessageOf] at hcount
    omega
  · rw [if_neg]
    rintro ⟨hru, _⟩
    exact hr hru

theorem addMessageConv_userCount_ge (tf : String → String) (role : MessageRole)
    (content : String) (metadata : Option (List (String × String)))
    (mid : String) (now : Int) (c : Conversation)
    (h : 1 ≤ userCount c.messages) :
    1 ≤ userCount (addMessageConv tf role content metadata mid now c).messages := by
  rw [addMessageConv_messages, userCount_append]
  omega

theorem addMessageConv_first_user (tf : String → String) (content : String)
    (metadata : Option (List (String × String))) (mid : String) (now : Int)
    (c : Conversation) (h : userCount c.messages = 0) :
    (addMessageConv tf MessageRole.user content metadata mid now c).title =
        tf content ∧
      1 ≤ userCount
        (addMessageConv tf MessageRole.user content metadata mid now c).messages := by
  constructor
  · show (if MessageRole.user = MessageRole.user ∧
        userCount (c.messages ++
          [newMessageOf MessageRole.user content metadata mid now]) = 1
      then tf content else c.title) = tf content
    rw [userCount_append]
    rw [if_pos]
    refine ⟨rfl, ?_⟩
    simp [newMessageOf]
    omega
  · rw [addMessageConv_messages, userCount_append]
    simp [newMessageOf]

theorem runAdds_title_keep (tf : String → String) (cid : String) (T : String) :
    ∀ (calls : List AddCall) (s : ChatState),
      (∃ c, findConv s cid = some c ∧ c.title = T ∧ 1 ≤ userCount c.messages) →
      ∃ c, findConv (runAdds tf s calls) cid = some c ∧ c.title = T ∧
        1 ≤ userCount c.messages := by
  intro calls
  induction calls with
  | nil => intro s h; exact h
  | cons a rest ih =>
      rintro s ⟨c, hc, hT, hcount⟩
      show ∃ c, findConv (runAdds tf
        (addMessage tf s a.cid a.role a.content a.metadata a.mid a.now) rest) cid =
          some c ∧ c.title = T ∧ 1 ≤ userCount c.messages
      apply ih
      rw [findConv_addMessage]
      by_cases hcid : cid = a.cid
      · rw [if_pos hcid, hc]
        exact ⟨addMessageConv tf a.role a.content a.metadata a.mid a.now c, rfl,
          hT ▸ addMessageConv_title_keep tf a.role a.content a.metadata a.mid
            a.now c hcount,
          addMessageConv_userCount_ge tf a.role a.content a.metadata a.mid
            a.now c hcount⟩
      · rw [if_neg hcid]
        exact ⟨c, hc, hT, hcount⟩

/-- C6: once the first `user`-role message is added to a conversation, the
title becomes `extractConversationTitle` (here the abstract `tf`) of that
message's content, and no subsequent `addMessage` call — of any role, with
any arguments, on any conversation — ever changes it again. -/
theorem c6_title_set_once (tf : String → String) (s : ChatState)
    (cid : String) (c : Conversation) (content : String)
    (metadata : Option (List (String × String))) (mid : String) (now : Int)
    (hc : findConv s cid = some c) (h0 : userCount c.messages = 0) :
    ∀ calls : List AddCall,
      ∃ c', findConv (runAdds tf
          (addMessage tf s cid MessageRole.user content metadata mid now)
          calls) cid = some c' ∧
        c'.title = tf content := by
  intro calls
  have first : ∃ c1,
      findConv (addMessage tf s cid MessageRole.user content metadata mid now)
          cid = some c1 ∧
        c1.title = tf content ∧ 1 ≤ userCount c1.messages := by
    rw [findConv_addMessage, if_pos rfl, hc]
    obtain ⟨h1, h2⟩ := addMessageConv_first_user tf content metadata mid now c h0
    exact ⟨addMessageConv tf MessageRole.user content metadata mid now c, rfl,
      h1, h2⟩
  obtain ⟨c', h1, h2, _⟩ := runAdds_title_keep tf cid (tf content) calls _ first
  exact ⟨c', h1, h2⟩

/-- Witness for C6: on the message-less conversation `c2`, a first user
message titled the conversation with its content, and a second user message
(different content) leaves the title alone. -/
theorem c6_title_set_once_witness :
    ∃ c', findConv (runAdds id
        (addMessage id sampleState "c2" MessageRole.user "hello world" none "m7" 8)
        [⟨"c2", MessageRole.user, "second question", none, "m8", 9⟩]) "c2" =
      some c' ∧ c'.title = "hello world" := by
  have h := c6_title_set_once id sampleState "c2" sampleConvEmpty "hello world"
    none "m7" 8 (by decide) (by decide)
    [⟨"c2", MessageRole.user, "second question", none, "m8", 9⟩]
  exact h

theorem updateMessageConv_updatedAt (mid : String) (u : MessageUpdate)
    (now : Int) (c : Conversation) :
    (updateMessageConv mid u now c).updatedAt = c.updatedAt ∨
      (updateMessageConv mid u now c).updatedAt = now := by
  unfold updateMessageConv
  split
  · exact Or.inr rfl
  · exact Or.inl rfl

theorem deleteMessageConv_updatedAt (mid : String) (now : Int)
    (c : Conversation) :
    (deleteMessageConv mid now c).updatedAt = c.updatedAt ∨
      (deleteMessageConv mid now c).updatedAt = now := by
  unfold deleteMessageConv
  split
  · exact Or.inr rfl
  · exact Or.inl rfl

theorem conv_update_bound (l : List Conversation) (p : Conversation → Bool)
    (f : Conversation → Conversation) (t : Int)
    (hf : ∀ c, (f c).updatedAt = c.updatedAt ∨ (f c).updatedAt = t)
    (h : ∀ c ∈ l, c.updatedAt ≤ t) :
    ∀ c ∈ updateFirst p f l, c.updatedAt ≤ t := by
  intro y hy
  rcases mem_updateFirst p f l y hy with h' | ⟨x, hx, rfl⟩
  · exact h y h'
  · rcases hf x with heq | heq <;> rw [heq]
    exact h x hx

theorem applyOp_updatedAt_bound (tf : String → String) (t : Int)
    (s : ChatState) (op : StoreOp)
    (h : ∀ c ∈ s.conversations, c.updatedAt ≤ t) :
    ∀ c ∈ (applyOp tf t s op).conversations, c.updatedAt ≤ t := by
  cases op with
  | add cid role content metadata mid =>
      exact conv_update_bound s.conversations _ _ t (fun c => Or.inr rfl) h
  | update cid mid u =>
      exact conv_update_bound s.conversations _ _ t
        (updateMessageConv_updatedAt mid u t) h
  | updateStatus cid mid st =>
      exact conv_update_bound s.conversations _ _ t
        (updateMessageConv_updatedAt mid (statusOnly st) t) h
  | del cid mid =>
      exact conv_update_bound s.conversations _ _ t
        (deleteMessageConv_updatedAt mid t) h
  | setTitle cid title =>
      exact conv_update_bound s.conversations _ _ t (fun c => Or.inr rfl) h

theorem applyOp_findConv_mono (tf : String → String) (t : Int) (s : ChatState)
    (op : StoreOp) (cid : String) (c : Conversation)
    (h : findConv s cid = some c) :
    ∃ c', findConv (applyOp tf t s op) cid = some c' ∧
      (c'.updatedAt = c.updatedAt ∨ c'.updatedAt = t) := by
  cases op with
  | add cid2 role content metadata mid =>
      rw [show applyOp tf t s (StoreOp.add cid2 role content metadata mid) =
        addMessage tf s cid2 role content metadata mid t from rfl,
        findConv_addMessage]
      by_cases hcid : cid = cid2
      · rw [if_pos hcid, h]
        exact ⟨_, rfl, Or.inr rfl⟩
      · rw [if_neg hcid]
        exact ⟨c, h, Or.inl rfl⟩
  | update cid2 mid u =>
      rw [show applyOp tf t s (StoreOp.update cid2 mid u) =
        updateMessage s cid2 mid u t from rfl, findConv_updateMessage]
      by_cases hcid : cid = cid2
      · rw [if_pos hcid, h]
        exact ⟨_, rfl, updateMessageConv_updatedAt mid u t c⟩
      · rw [if_neg hcid]
        exact ⟨c, h, Or.inl rfl⟩
  | updateStatus cid2 mid st =>
      rw [show applyOp tf t s (StoreOp.updateStatus cid2 mid st) =
        updateMessage s cid2 mid (statusOnly st) t from rfl, findConv_updateMessage]
      by_cases hcid : cid = cid2
      · rw [if_pos hcid, h]
        exact ⟨_, rfl, updateMessageConv_updatedAt mid (statusOnly st) t c⟩
      · rw [if_neg hcid]
        exact ⟨c, h, Or.inl rfl⟩
  | del cid2 mid =>
      rw [show applyOp tf t s (StoreOp.del cid2 mid) =
        deleteMessage s cid2 mid t from rfl, findConv_deleteMessage]
      by_cases hcid : cid = cid2
      · rw [if_pos hcid, h]
        exact ⟨_, rfl, deleteMessageConv_updatedAt mid t c⟩
      · rw [if_neg hcid]
        exact ⟨c, h, Or.inl rfl⟩
  | setTitle cid2 title =>
      rw [show applyOp tf t s (StoreOp.setTitle cid2 title) =
        updateConversationTitle s cid2 title t from rfl,
        findConv_updateConversationTitle]
      by_cases hcid : cid = cid2
      · rw [if_pos hcid, h]
        exact ⟨_, rfl, Or.inr rfl⟩
      · rw [if_neg hcid]
        exact ⟨c, h, Or.inl rfl⟩

theorem runOps_updatedAt_mono (tf : String → String) :
    ∀ (ops : List (StoreOp × Int)) (s : ChatState) (t0 : Int),
      List.Chain (· ≤ ·) t0 (ops.map Prod.snd) →
      (∀ d ∈ s.conversations, d.updatedAt ≤ t0) →
      ∀ cid c, findConv s cid = some c →
        ∃ c', findConv (runOps tf s ops) cid = some c' ∧
          c.updatedAt ≤ c'.updatedAt := by
  intro ops
  induction ops with
  | nil =>
      intro s t0 _ _ cid c h
      exact ⟨c, h, le_refl _⟩
  | cons p rest ih =>
      intro s t0 hchain hbound cid c h
      obtain ⟨op, t⟩ := p
      rw [List.map_cons, List.chain_cons] at hchain
      obtain ⟨ht0t, hchain'⟩ := hchain
      have hboundt : ∀ d ∈ s.conversations, d.updatedAt ≤ t :=
        fun d hd => le_trans (hbound d hd) ht0t
      have hct : c.updatedAt ≤ t :=
        hboundt c (List.mem_of_find?_eq_some h)
      obtain ⟨c1, hc1, hup1⟩ := applyOp_findConv_mono tf t s op cid c h
      have hbound1 : ∀ d ∈ (applyOp tf t s op).conversations, d.updatedAt ≤ t :=
        applyOp_updatedAt_bound tf t s op hboundt
      obtain ⟨c', hc', hup'⟩ :=
        ih (applyOp tf t s op) t hchain' hbound1 cid c1 hc1
      refine ⟨c', hc', le_trans ?_ hup'⟩
      rcases hup1 with heq | heq <;> rw [heq]
      exact hct

/-- C9: every conversation-mutating operation (`addMessage`,
`updateMessage`, `updateMessageStatus`, `deleteMessage`,
`updateConversationTitle`) that actually finds its target sets that
conversation's `updatedAt` to the current clock reading; consequently, for a
non-decreasing ambient clock and a state whose conversations are no newer
than the first reading, `updatedAt` is monotonically non-decreasing over
every sequence of store operations. -/
theorem c9_updatedAt_bump_mono (tf : String → String) :
    (∀ s cid c role content metadata mid now, findConv s cid = some c →
      ∃ c', findConv (addMessage tf s cid role content metadata mid now) cid =
          some c' ∧ c'.updatedAt = now) ∧
    (∀ (s : ChatState) cid c mid m u now, findConv s cid = some c →
      findMsg c mid = some m →
      ∃ c', findConv (updateMessage s cid mid u now) cid = some c' ∧
        c'.updatedAt = now) ∧
    (∀ (s : ChatState) cid c mid m st now, findConv s cid = some c →
      findMsg c mid = some m →
      ∃ c', findConv (updateMessageStatus s cid mid st now) cid = some c' ∧
        c'.updatedAt = now) ∧
    (∀ (s : ChatState) cid c mid m now, findConv s cid = some c →
      findMsg c mid = some m →
      ∃ c', findConv (deleteMessage s cid mid now) cid = some c' ∧
        c'.updatedAt = now) ∧
    (∀ (s : ChatState) cid c title now, findConv s cid = some c →
      ∃ c', findConv (updateConversationTitle s cid title now) cid = some c' ∧
        c'.updatedAt = now) ∧
    (∀ (ops : List (StoreOp × Int)) (s : ChatState) (t0 : Int) cid c,
      List.Chain (· ≤ ·) t0 (ops.map Prod.snd) →
      (∀ d ∈ s.conversations, d.updatedAt ≤ t0) →
      findConv s cid = some c →
      ∃ c', findConv (runOps tf s ops) cid = some c' ∧
        c.updatedAt ≤ c'.updatedAt) := by
  refine ⟨?_, ?_, ?_, ?_, ?_, ?_⟩
  · intro s cid c role content metadata mid now h
    rw [findConv_addMessage, if_pos rfl, h]
    exact ⟨_, rfl, rfl⟩
  · intro s cid c mid m u now h hm
    rw [findConv_updateMessage, if_pos rfl, h]
    refine ⟨_, rfl, ?_⟩
    unfold updateMessageConv
    rw [if_pos]
    simp [hm]
  · intro s cid c mid m st now h hm
    rw [show updateMessageStatus s cid mid st now =
      updateMessage s cid mid (statusOnly st) now from rfl,
      findConv_updateMessage, if_pos rfl, h]
    refine ⟨_, rfl, ?_⟩
    unfold updateMessageConv
    rw [if_pos]
    simp [hm]
  · intro s cid c mid m now h hm
    rw [findConv_deleteMessage, if_pos rfl, h]
    refine ⟨_, rfl, ?_⟩
    unfold deleteMessageConv
    rw [if_pos]
    simp [hm]
  · intro s cid c title now h
    rw [findConv_updateConversationTitle, if_pos rfl, h]
    exact ⟨_, rfl, rfl⟩
  · intro ops s t0 cid c hchain hbound h
    exact runOps_updatedAt_mono tf ops s t0 hchain hbound cid c h

/-- Witness for C9 on `sampleState` (`c1.updatedAt = 5`): a title update at
time 9 bumps `updatedAt` to 9, and a two-operation trace at times 6 ≤ 7
leaves `updatedAt` no smaller than before. -/
theorem c9_updatedAt_bump_mono_witness :
    (∃ c', findConv (updateConversationTitle sampleState "c1" "T2" 9) "c1" =
        some c' ∧ c'.updatedAt = 9) ∧
    (∃ c', findConv (runOps id sampleState
        [(StoreOp.setTitle "c1" "A", 6),
         (StoreOp.add "c1" MessageRole.assistant "r" none "m5", 7)]) "c1" =
      some c' ∧ sampleConv.updatedAt ≤ c'.updatedAt) := by
  constructor
  · exact (c9_updatedAt_bump_mono id).2.2.2.2.1 sampleState "c1" sampleConv
      "T2" 9 (by decide)
  · exact (c9_updatedAt_bump_mono id).2.2.2.2.2
      [(StoreOp.setTitle "c1" "A", 6),
       (StoreOp.add "c1" MessageRole.assistant "r" none "m5", 7)]
      sampleState 5 "c1" sampleConv
      (List.Chain.cons (by decide) (List.Chain.cons (by decide) List.Chain.nil))
      (by decide) (by decide)

theorem ceil_div_succ (d C : Nat) (hC : 0 < C) (hd : 0 < d) :
    (d + C - 1) / C = (d - C + C - 1) / C + 1 := by
  rcases le_or_lt d C with hdc | hdc
  · rw [show d - C = 0 from by omega]
    rw [show d + C - 1 = (d - 1) + C from by omega, Nat.add_div_right _ hC]
    rw [Nat.div_eq_of_lt (by omega : d - 1 < C)]
    rw [show 0 + C - 1 = C - 1 from by omega,
      Nat.div_eq_of_lt (by omega : C - 1 < C)]
  · rw [show d + C - 1 = (d - 1) + C from by omega, Nat.add_div_right _ hC]
    rw [show d - C + C - 1 = (d - C - 1) + C from by omega,
      Nat.add_div_right _ hC]
    rw [Nat.div_eq_sub_div hC (by omega : C ≤ d - 1)]
    rw [show d - 1 - C = d - C - 1 from by omega]

theorem buildChunksAux_eq (C total : Nat) (hC : 0 < C) :
    ∀ (fuel start : Nat), total ≤ start + fuel * C →
      buildChunksAux C total fuel start =
        (List.range ((total - start + C - 1) / C)).map
          (fun i => (start + i * C, min (start + (i + 1) * C) total - 1)) := by
  intro fuel
  induction fuel with
  | zero =>
      intro start h
      rw [show (0 : Nat) * C = 0 from by omega] at h
      rw [show total - start = 0 from by omega]
      rw [show 0 + C - 1 = C - 1 from by omega,
        Nat.div_eq_of_lt (by omega : C - 1 < C)]
      simp [buildChunksAux]
  | succ fuel ih =>
      intro start h
      rw [Nat.succ_mul] at h
      by_cases hs : start < total
      · have hrec : total ≤ (start + C) + fuel * C := by omega
        simp only [buildChunksAux]
        rw [if_pos hs, ih (start + C) hrec]
        have hn : (total - start + C - 1) / C =
            (total - (start + C) + C - 1) / C + 1 := by
          have hcs := ceil_div_succ (total - start) C hC (by omega)
          rw [show total - start - C = total - (start + C) from by omega] at hcs
          exact hcs
        rw [hn, List.range_succ_eq_map, List.map_cons, List.map_map]
        congr 1
        · simp
        · congr 1
          funext i
          have e1 : start + (i + 1) * C = start + C + i * C := by ring
          have e2 : start + (i + 1 + 1) * C = start + C + (i + 1) * C := by ring
          simp [Function.comp, Nat.succ_eq_add_one, e1, e2]
      · simp only [buildChunksAux]
        rw [if_neg hs]
        rw [show total - start = 0 from by omega]
        rw [show 0 + C - 1 = C - 1 from by omega,
          Nat.div_eq_of_lt (by omega : C - 1 < C)]
        simp

theorem buildChunks_eq_chunksSpec (C total : Nat) (hC : 0 < C) :
    buildChunks C total = chunksSpec C total := by
  unfold buildChunks chunksSpec
  have hfuel : total ≤ 0 + total * C := by
    have := Nat.le_mul_of_pos_right total hC
    omega
  rw [buildChunksAux_eq C total hC total 0 hfuel]
  congr 1
  funext i
  simp

theorem lt_ceil_iff (S C k : Nat) (hC : 0 < C) (hS : 0 < S) :
    k < (S + C - 1) / C ↔ k * C < S := by
  rw [Nat.lt_iff_add_one_le, Nat.le_div_iff_mul_le hC, Nat.succ_mul]
  constructor
  · intro h
    have := h
    omega
  · intro h
    omega

theorem ceil_mul_ge (S C : Nat) (hC : 0 < C) (hS : 0 < S) :
    S ≤ ((S + C - 1) / C) * C := by
  by_contra h
  push_neg at h
  have := (lt_ceil_iff S C ((S + C - 1) / C) hC hS).mpr h
  omega

theorem ceil_pos (S C : Nat) (hC : 0 < C) (hS : 0 < S) :
    0 < (S + C - 1) / C := by
  rw [Nat.pos_iff_ne_zero]
  intro h0
  have := ceil_mul_ge S C hC hS
  rw [h0] at this
  omega

theorem finalResponseAux_no_hit (total : Nat)
    (responses : Nat → IngestDocumentResponse) :
    ∀ (l : List (Nat × Nat)) (i0 : Nat) (acc : Option IngestDocumentResponse),
      (∀ ch ∈ l, ch.2 + 1 ≠ total) →
      finalResponseAux total responses l i0 acc = acc := by
  intro l
  induction l with
  | nil => intro i0 acc _; rfl
  | cons ch rest ih =>
      intro i0 acc h
      simp only [finalResponseAux]
      rw [if_neg (fun hc => h ch (List.mem_cons_self ch rest) hc.1)]
      exact ih (i0 + 1) acc (fun ch' hch' => h ch' (List.mem_cons_of_mem ch hch'))

theorem finalResponseAux_last (total : Nat)
    (responses : Nat → IngestDocumentResponse) :
    ∀ (l : List (Nat × Nat)) (ch : Nat × Nat) (i0 : Nat),
      (∀ ch' ∈ l, ch'.2 + 1 ≠ total) → ch.2 + 1 = total →
      finalResponseAux total responses (l ++ [ch]) i0 none =
        if (responses (i0 + l.length)).status = "success"
        then some (responses (i0 + l.length)) else none := by
  intro l
  induction l with
  | nil =>
      intro ch i0 _ hch
      have hstep : finalResponseAux total responses ([] ++ [ch]) i0 none =
          (if ch.2 + 1 = total ∧ (responses i0).status = "success"
           then some (responses i0) else none) := rfl
      rw [hstep]
      simp only [List.length_nil, Nat.add_zero]
      by_cases hs : (responses i0).status = "success"
      · rw [if_pos ⟨hch, hs⟩, if_pos hs]
      · rw [if_neg (fun hc => hs hc.2), if_neg hs]
  | cons ch' rest ih =>
      intro ch i0 hpre hch
      have hstep : finalResponseAux total responses ((ch' :: rest) ++ [ch]) i0 none =
          finalResponseAux total responses (rest ++ [ch]) (i0 + 1)
            (if ch'.2 + 1 = total ∧ (responses i0).status = "success"
             then some (responses i0) else none) := rfl
      rw [hstep, if_neg (fun hc => hpre ch' (List.mem_cons_self ch' rest) hc.1)]
      rw [ih ch (i0 + 1) (fun x hx => hpre x (List.mem_cons_of_mem ch' hx)) hch]
      rw [show i0 + 1 + rest.length = i0 + (ch' :: rest).length from by
        simp [List.length_cons]
        omega]

theorem buildChunks_split (C total : Nat) (hC : 0 < C) (hS : 0 < total) :
    ∃ l ch, buildChunks C total = l ++ [ch] ∧
      (∀ ch' ∈ l, ch'.2 + 1 ≠ total) ∧ ch.2 + 1 = total ∧
      l.length = (buildChunks C total).length - 1 := by
  have heq := buildChunks_eq_chunksSpec C total hC
  set n := (total + C - 1) / C with hn
  have hnpos : 0 < n := ceil_pos total C hC hS
  obtain ⟨m, hm⟩ : ∃ m, n = m + 1 := ⟨n - 1, by omega⟩
  refine ⟨(List.range m).map
      (fun i => (i * C, min ((i + 1) * C) total - 1)),
    (m * C, min ((m + 1) * C) total - 1), ?_, ?_, ?_, ?_⟩
  · rw [heq]
    unfold chunksSpec
    rw [← hn, hm, List.range_succ, List.map_append, List.map_singleton]
  · intro ch' hch'
    obtain ⟨i, hi, rfl⟩ := List.mem_map.mp hch'
    have him : i < m := List.mem_range.mp hi
    have hlt : (i + 1) * C < total := by
      have := (lt_ceil_iff total C (i + 1) hC hS).mp (by omega)
      exact this
    have hCi : 0 < (i + 1) * C := by positivity
    rw [min_eq_left (le_of_lt hlt)]
    omega
  · have hge : total ≤ (m + 1) * C := by
      have := ceil_mul_ge total C hC hS
      rw [← hn, hm] at this
      exact this
    rw [min_eq_right hge]
    omega
  · rw [heq]
    unfold chunksSpec
    rw [← hn, hm]
    simp

/-- C2: for a positive file size `S` and chunk size `C`, `ingestRange`
partitions `[0, S)` into `ceil(S/C)` contiguous inclusive ranges, the `i`-th
being `[i*C, min((i+1)*C, S) - 1]`; every range request carries the one
shared `uploadId`; and the returned result is exactly the response to the
final range (the one whose inclusive end is `S - 1`) when that response
reports status `"success"` — otherwise the upload-incomplete error is
raised, regardless of the other responses.  The 12 MiB / 5 MiB example
produces exactly the three ranges the spec lists. -/
theorem c2_ingestRange_ranges (chunkSize total : Nat) (hC : 0 < chunkSize)
    (hS : 0 < total) (uploadId : String)
    (responses : Nat → IngestDocumentResponse) :
    (buildChunks chunkSize total).length = (total + chunkSize - 1) / chunkSize ∧
    (∀ i, ∀ h : i < (buildChunks chunkSize total).length,
      (buildChunks chunkSize total).get ⟨i, h⟩ =
        (i * chunkSize, min ((i + 1) * chunkSize) total - 1)) ∧
    (∀ r ∈ rangeRequests uploadId chunkSize total, r.uploadId = uploadId) ∧
    ((responses ((buildChunks chunkSize total).length - 1)).status = "success" →
      ingestRange chunkSize total responses =
        Except.ok (responses ((buildChunks chunkSize total).length - 1))) ∧
    ((responses ((buildChunks chunkSize total).length - 1)).status ≠ "success" →
      ingestRange chunkSize total responses =
        Except.error "Upload did not complete. No final response received.") ∧
    buildChunks 5242880 12582912 =
      [(0, 5242879), (5242880, 10485759), (10485760, 12582911)] := by
  obtain ⟨l, ch, hsplit, hpre, hlast, hlen⟩ :=
    buildChunks_split chunkSize total hC hS
  have hfin : finalResponseAux total responses (buildChunks chunkSize total) 0 none =
      if (responses ((buildChunks chunkSize total).length - 1)).status = "success"
      then some (responses ((buildChunks chunkSize total).length - 1))
      else none := by
    conv_lhs => rw [hsplit]
    rw [finalResponseAux_last total responses l ch 0 hpre hlast]
    rw [show (0 : Nat) + l.length = l.length from by omega, hlen]
  refine ⟨?_, ?_, ?_, ?_, ?_, ?_⟩
  · rw [buildChunks_eq_chunksSpec chunkSize total hC]
    unfold chunksSpec
    simp
  · intro i h
    have heq := buildChunks_eq_chunksSpec chunkSize total hC
    have h' : i < (chunksSpec chunkSize total).length := by rw [← heq]; exact h
    rw [List.get_of_eq heq]
    unfold chunksSpec
    simp
  · intro r hr
    obtain ⟨chnk, _, rfl⟩ := List.mem_map.mp hr
    rfl
  · intro hok
    unfold ingestRange
    rw [hfin, if_pos hok]
  · intro hbad
    unfold ingestRange
    rw [hfin, if_neg hbad]
  · decide

/-- Witness for C2 at the spec's 12 MiB / 5 MiB example with every range
reporting success: the result is the response to the third (final) range. -/
theorem c2_ingestRange_ranges_witness :
    ingestRange 5242880 12582912 (fun _ => sampleIngestOk) =
        Except.ok sampleIngestOk ∧
      buildChunks 5242880 12582912 =
        [(0, 5242879), (5242880, 10485759), (10485760, 12582911)] := by
  obtain ⟨_, _, _, hok, _, hconc⟩ :=
    c2_ingestRange_ranges 5242880 12582912 (by decide) (by decide) "u"
      (fun _ => sampleIngestOk)
  exact ⟨hok rfl, hconc⟩

theorem elapsedBefore_mono : ∀ m n : Nat, m ≤ n →
    elapsedBefore m ≤ elapsedBefore n := by
  intro m n h
  induction n with
  | zero =>
      rw [Nat.le_zero.mp h]
  | succ n ih =>
      rcases Nat.lt_or_ge m (n + 1) with hlt | hge
      · calc elapsedBefore m ≤ elapsedBefore n := ih (by omega)
          _ ≤ elapsedBefore n + defaultSleep n := Nat.le_add_right _ _
          _ = elapsedBefore (n + 1) := rfl
      · rw [Nat.le_antisymm h hge]

theorem pollDefaults_state (getStatus : Nat → JobStatusResponse) :
    ∀ (n fuel : Nat), n ≤ fuel →
      (∀ m, m < n → isTerminal (getStatus m).status = false) →
      (∀ m, m < n → elapsedBefore m < 120000) →
      pollDefaults getStatus fuel =
        pollAux getStatus 120000 3000 (fuel - n) (elapsedBefore n) n
          (intervalSeq 500 3000 n) := by
  intro n
  induction n with
  | zero => intro fuel _ _ _; rfl
  | succ n ih =>
      intro fuel hfuel hterm helapsed
      rw [ih fuel (by omega) (fun m hm => hterm m (by omega))
        (fun m hm => helapsed m (by omega))]
      obtain ⟨f, hf⟩ : ∃ f, fuel - n = f + 1 := ⟨fuel - n - 1, by omega⟩
      rw [hf]
      have hel : elapsedBefore n < 120000 := helapsed n (by omega)
      have ht := hterm n (by omega)
      simp only [pollAux]
      rw [if_pos hel]
      have hfn : f = fuel - (n + 1) := by omega
      rcases hst : (getStatus n).status
      all_goals rw [hst] at ht
      all_goals try exact absurd ht (by decide)
      all_goals rw [hfn]
      all_goals rfl

theorem pollAux_timeout_aux (getStatus : Nat → JobStatusResponse)
    (h : ∀ m, elapsedBefore m < 120000 →
      isTerminal (getStatus m).status = false) :
    ∀ (k n fuel : Nat), 120000 ≤ elapsedBefore (n + k) → k < fuel →
      pollAux getStatus 120000 3000 fuel (elapsedBefore n) n
          (intervalSeq 500 3000 n) =
        PollResult.chatError "Job polling timed out. Please try again."
          "POLL_TIMEOUT" := by
  intro k
  induction k with
  | zero =>
      intro n fuel hel hfuel
      obtain ⟨f, rfl⟩ : ∃ f, fuel = f + 1 := ⟨fuel - 1, by omega⟩
      rw [show n + 0 = n from by omega] at hel
      simp only [pollAux]
      rw [if_neg (by omega : ¬ elapsedBefore n < 120000)]
  | succ k ih =>
      intro n fuel hel hfuel
      obtain ⟨f, rfl⟩ : ∃ f, fuel = f + 1 := ⟨fuel - 1, by omega⟩
      by_cases hn : elapsedBefore n < 120000
      · have ht := h n hn
        have hel' : 120000 ≤ elapsedBefore (n + 1 + k) := by
          rw [show n + 1 + k = n + (k + 1) from by omega]
          exact hel
        simp only [pollAux]
        rw [if_pos hn]
        rcases hst : (getStatus n).status
        all_goals rw [hst] at ht
        all_goals try exact absurd ht (by decide)
        all_goals exact ih (n + 1) f hel' (by omega)
      · simp only [pollAux]
        rw [if_neg hn]

/-- C1: with default options, `pollJobUntilComplete` returns the full status
payload at the first `finished` response, raises
`ChatError(_, "JOB_FAILED")` carrying the backend error text (or its
default) at the first `failed` response, raises
`ChatError(_, "JOB_NOT_FOUND")` at the first `not_found` response —
continuing to poll through every other status — and raises
`ChatError(_, "POLL_TIMEOUT")` once the elapsed time reaches the default
120000 ms with no terminal status observed.  `n < fuel` only asks the
embedding for enough fuel to reach the decisive iteration. -/
theorem c1_poll_terminal_or_timeout (getStatus : Nat → JobStatusResponse) :
    (∀ n fuel, n < fuel →
      (∀ m, m < n → isTerminal (getStatus m).status = false) →
      elapsedBefore n < 120000 →
      (((getStatus n).status = JobStatus.finished →
          pollDefaults getStatus fuel = PollResult.ok (getStatus n)) ∧
        ((getStatus n).status = JobStatus.failed →
          pollDefaults getStatus fuel =
            PollResult.chatError
              (orElseText (getStatus n).error "Job processing failed")
              "JOB_FAILED") ∧
        ((getStatus n).status = JobStatus.not_found →
          pollDefaults getStatus fuel =
            PollResult.chatError "Job not found. It may have expired."
              "JOB_NOT_FOUND"))) ∧
    (∀ N fuel, N < fuel →
      (∀ m, elapsedBefore m < 120000 →
        isTerminal (getStatus m).status = false) →
      120000 ≤ elapsedBefore N →
      pollDefaults getStatus fuel =
        PollResult.chatError "Job polling timed out. Please try again."
          "POLL_TIMEOUT") := by
  constructor
  · intro n fuel hfuel hterm hel
    rw [pollDefaults_state getStatus n fuel (le_of_lt hfuel) hterm
      (fun m hm => lt_of_le_of_lt (elapsedBefore_mono m n (le_of_lt hm)) hel)]
    obtain ⟨f, hf⟩ : ∃ f, fuel - n = f + 1 := ⟨fuel - n - 1, by omega⟩
    rw [hf]
    simp only [pollAux]
    rw [if_pos hel]
    refine ⟨?_, ?_, ?_⟩ <;> intro hst <;> rw [hst]
  · intro N fuel hfuel hterm hel
    have hstart : pollDefaults getStatus fuel =
        pollAux getStatus 120000 3000 fuel (elapsedBefore 0) 0
          (intervalSeq 500 3000 0) := rfl
    rw [hstart]
    exact pollAux_timeout_aux getStatus hterm N 0 fuel
      (by rw [show 0 + N = N from by omega]; exact hel) hfuel

theorem intervalSeq_closed (n : Nat) :
    intervalSeq 500 3000 n = min ((500 : ℚ) * (3 / 2) ^ n) 3000 := by
  induction n with
  | zero =>
      simp only [intervalSeq, pow_zero, mul_one]
      rw [min_eq_left (by norm_num)]
  | succ n ih =>
      show min (intervalSeq 500 3000 n * (3 / 2)) 3000 =
        min ((500 : ℚ) * (3 / 2) ^ (n + 1)) 3000
      rw [ih]
      rcases le_total ((500 : ℚ) * (3 / 2) ^ n) 3000 with hle | hge
      · rw [min_eq_left hle, pow_succ, ← mul_assoc]
      · rw [min_eq_right hge]
        rw [min_eq_right (by norm_num : (3000 : ℚ) ≤ 3000 * (3 / 2))]
        rw [min_eq_right]
        calc (3000 : ℚ) ≤ 3000 * (3 / 2) := by norm_num
          _ ≤ 500 * (3 / 2) ^ n * (3 / 2) := by
              apply mul_le_mul_of_nonneg_right hge
              norm_num
          _ = 500 * (3 / 2) ^ (n + 1) := by rw [pow_succ, ← mul_assoc]

theorem sleepMs_eval (q : ℚ) (z : ℤ) (h1 : (z : ℚ) ≤ q) (h2 : q < z + 1) :
    sleepMs q = z.toNat := by
  show q.floor.toNat = z.toNat
  rw [show q.floor = ⌊q⌋ from rfl, Int.floor_eq_iff.mpr ⟨h1, h2⟩]

theorem defaultSleep_zero : defaultSleep 0 = 500 := by
  show sleepMs (intervalSeq 500 3000 0) = 500
  rw [intervalSeq_closed,
    min_eq_left (by norm_num : (500 : ℚ) * (3 / 2) ^ 0 ≤ 3000),
    sleepMs_eval _ 500 (by norm_num) (by norm_num)]
  rfl

theorem defaultSleep_one : defaultSleep 1 = 750 := by
  show sleepMs (intervalSeq 500 3000 1) = 750
  rw [intervalSeq_closed,
    min_eq_left (by norm_num : (500 : ℚ) * (3 / 2) ^ 1 ≤ 3000),
    sleepMs_eval _ 750 (by norm_num) (by norm_num)]
  rfl

theorem defaultSleep_two : defaultSleep 2 = 1125 := by
  show sleepMs (intervalSeq 500 3000 2) = 1125
  rw [intervalSeq_closed,
    min_eq_left (by norm_num : (500 : ℚ) * (3 / 2) ^ 2 ≤ 3000),
    sleepMs_eval _ 1125 (by norm_num) (by norm_num)]
  rfl

theorem defaultSleep_three : defaultSleep 3 = 1687 := by
  show sleepMs (intervalSeq 500 3000 3) = 1687
  rw [intervalSeq_closed,
    min_eq_left (by norm_num : (500 : ℚ) * (3 / 2) ^ 3 ≤ 3000),
    sleepMs_eval _ 1687 (by norm_num) (by norm_num)]
  rfl

theorem defaultSleep_four : defaultSleep 4 = 2531 := by
  show sleepMs (intervalSeq 500 3000 4) = 2531
  rw [intervalSeq_closed,
    min_eq_left (by norm_num : (500 : ℚ) * (3 / 2) ^ 4 ≤ 3000),
    sleepMs_eval _ 2531 (by norm_num) (by norm_num)]
  rfl

theorem defaultSleep_of_ge (n : Nat) (h : 5 ≤ n) : defaultSleep n = 3000 := by
  show sleepMs (intervalSeq 500 3000 n) = 3000
  have h5 : (3000 : ℚ) ≤ 500 * (3 / 2) ^ n := by
    have hpow : ((3 / 2 : ℚ)) ^ 5 ≤ (3 / 2) ^ n :=
      pow_le_pow_right₀ (by norm_num) h
    calc (3000 : ℚ) ≤ 500 * (3 / 2) ^ 5 := by norm_num
      _ ≤ 500 * (3 / 2) ^ n := by
          apply mul_le_mul_of_nonneg_left hpow
          norm_num
  rw [intervalSeq_closed, min_eq_right h5,
    sleepMs_eval _ 3000 (by norm_num) (by norm_num)]
  rfl

theorem elapsedBefore_zero : elapsedBefore 0 = 0 := rfl

theorem elapsedBefore_one : elapsedBefore 1 = 500 := by
  show elapsedBefore 0 + defaultSleep 0 = 500
  rw [defaultSleep_zero]
  rfl

theorem elapsedBefore_two : elapsedBefore 2 = 1250 := by
  show elapsedBefore 1 + defaultSleep 1 = 1250
  rw [elapsedBefore_one, defaultSleep_one]

theorem elapsedBefore_three : elapsedBefore 3 = 2375 := by
  show elapsedBefore 2 + defaultSleep 2 = 2375
  rw [elapsedBefore_two, defaultSleep_two]

theorem elapsedBefore_four : elapsedBefore 4 = 4062 := by
  show elapsedBefore 3 + defaultSleep 3 = 4062
  rw [elapsedBefore_three, defaultSleep_three]

theorem elapsedBefore_five : elapsedBefore 5 = 6593 := by
  show elapsedBefore 4 + defaultSleep 4 = 6593
  rw [elapsedBefore_four, defaultSleep_four]

theorem elapsedBefore_of_ge (n : Nat) (h : 5 ≤ n) :
    elapsedBefore n = 6593 + 3000 * (n - 5) := by
  induction n, h using Nat.le_induction with
  | base => rw [elapsedBefore_five]
  | succ n hn ih =>
      show elapsedBefore n + defaultSleep n = 6593 + 3000 * (n + 1 - 5)
      rw [ih, defaultSleep_of_ge n hn]
      omega

/-- Witness for C1: a stream that finishes on the third fetch returns that
response; an always-queued stream times out (the 44th iteration would start
at 120593 ms ≥ 120000 ms). -/
theorem c1_poll_terminal_or_timeout_witness :
    pollDefaults samplePollFinished 3 = PollResult.ok (samplePollFinished 2) ∧
      pollDefaults samplePollQueued 44 =
        PollResult.chatError "Job polling timed out. Please try again."
          "POLL_TIMEOUT" := by
  constructor
  · exact ((c1_poll_terminal_or_timeout samplePollFinished).1 2 3 (by omega)
      (fun m hm => by interval_cases m <;> decide)
      (by simp [elapsedBefore_two])).1 (by decide)
  · exact (c1_poll_terminal_or_timeout samplePollQueued).2 43 44 (by omega)
      (fun m _ => rfl)
      (by rw [elapsedBefore_of_ge 43 (by omega)]; norm_num)

/-- C5: at default options the delay slept after the `n`-th status fetch
(1-based `n`; index `n - 1` below) is `min(500 * 1.5^(n-1), 3000)`
milliseconds truncated to an integer — concretely 500, 750, 1125,
1687 (from 1687.5), 2531 (from 2531.25), 3000, 3000, … — and the poll loop
reaching its `n`-th fetch (all earlier responses non-terminal, elapsed time
under the 120000 ms default timeout) has slept exactly those delays, with
current interval `intervalSeq 500 3000 n`. -/
theorem c5_interval_schedule :
    (∀ n : Nat, intervalSeq 500 3000 n = min ((500 : ℚ) * (3 / 2) ^ n) 3000) ∧
    (∀ n : Nat,
      defaultSleep n = (min ((500 : ℚ) * (3 / 2) ^ n) 3000).floor.toNat) ∧
    ([defaultSleep 0, defaultSleep 1, defaultSleep 2, defaultSleep 3,
        defaultSleep 4, defaultSleep 5, defaultSleep 6] =
      [500, 750, 1125, 1687, 2531, 3000, 3000]) ∧
    (∀ (getStatus : Nat → JobStatusResponse) (n fuel : Nat), n ≤ fuel →
      (∀ m, m < n → isTerminal (getStatus m).status = false) →
      (∀ m, m < n → elapsedBefore m < 120000) →
      pollDefaults getStatus fuel =
        pollAux getStatus 120000 3000 (fuel - n) (elapsedBefore n) n
          (intervalSeq 500 3000 n)) := by
  refine ⟨intervalSeq_closed, ?_, ?_, pollDefaults_state⟩
  · intro n
    unfold defaultSleep sleepMs
    rw [intervalSeq_closed]
  · rw [defaultSleep_zero, defaultSleep_one, defaultSleep_two,
      defaultSleep_three, defaultSleep_four, defaultSleep_of_ge 5 (by omega),
      defaultSleep_of_ge 6 (by omega)]

/-- Witness for C5: the loop state after two non-terminal fetches, and the
truncated fourth delay 1687.5 → 1687. -/
theorem c5_interval_schedule_witness :
    pollDefaults samplePollQueued 5 =
        pollAux samplePollQueued 120000 3000 3 (elapsedBefore 2) 2
          (intervalSeq 500 3000 2) ∧
      defaultSleep 3 = 1687 := by
  constructor
  · exact c5_interval_schedule.2.2.2 samplePollQueued 2 5 (by omega)
      (fun m _ => rfl)
      (fun m hm => by
        interval_cases m <;> simp [elapsedBefore_zero, elapsedBefore_one])
  · exact defaultSleep_three

end RAG
